import Mathlib

/-
Shallow embedding of the wazero-dash bridge (package dash of
go-dash-wasi-reactor): guest linear memory, the string-marshaling layer
(allocString / freePtr / readCString), the session operations
(Init / Eval / GetVar / SetVar / GetExitStatus / Close), and the
setjmp/longjmp emulation imports (setjmpHost / longjmpHost).

Machine integers are modelled as Nat with explicit `% 2 ^ 32` (uint32
conversions) and `% 2 ^ 64` where the Go code truncates; i32 results are
read back through `toInt32`. Guest exports (malloc, free, dash_init, ...)
are opaque guest code: they are modelled as an abstract environment of
state transformers over the world (guest linear memory plus an abstract
guest-internal state), with `none` standing for a failed wazero Call.
-/

namespace DashWasi

/-- Guest linear memory: a byte-addressable space with a current size in
bytes. `data` is the byte stored at each address; wazero bounds-checks
every access against `size` (wasm32 memory never exceeds 2 ^ 32 bytes). -/
structure Mem where
  size : Nat
  data : Nat → Nat

/-- wazero `Memory().ReadByte`: succeeds exactly when the address is in
bounds. -/
def Mem.readByte (m : Mem) (a : Nat) : Option Nat :=
  if a < m.size then some (m.data a) else none

/-- wazero `Memory().Read(a, n)`: the `n` bytes starting at `a`, when the
whole range is in bounds. -/
def Mem.read (m : Mem) (a n : Nat) : Option (List Nat) :=
  if a + n ≤ m.size then some ((List.range n).map fun i => m.data (a + i)) else none

/-- wazero `Memory().Write(a, bs)`: bounds-checked write of a byte slice. -/
def Mem.write (m : Mem) (a : Nat) (bs : List Nat) : Option Mem :=
  if a + bs.length ≤ m.size then
    some ⟨m.size, fun i => if a ≤ i ∧ i < a + bs.length then bs.getD (i - a) 0 else m.data i⟩
  else none

/-- A write whose boolean result the Go code discards (e.g.
`mod.Memory().WriteUint64Le(bufPtr, uint64(idx))` in setjmpHost): on an
out-of-bounds range the memory is left unchanged. -/
def Mem.writeOrSkip (m : Mem) (a : Nat) (bs : List Nat) : Mem :=
  match m.write a bs with
  | some m2 => m2
  | none => m

/-- Little-endian byte decomposition: `w` bytes of `n` (the value is taken
mod 256 ^ w, exactly as Go's fixed-width stores do). -/
def leBytes : Nat → Nat → List Nat
  | 0, _ => []
  | w + 1, n => n % 256 :: leBytes w (n / 256)

/-- Little-endian recomposition of a byte list (each cell taken mod 256,
as wazero reads real bytes). -/
def fromLeBytes : List Nat → Nat
  | [] => 0
  | b :: bs => b % 256 + 256 * fromLeBytes bs

/-- wazero `Memory().ReadUint64Le`: 8 bytes little-endian, when in bounds. -/
def Mem.readU64Le (m : Mem) (a : Nat) : Option Nat :=
  (m.read a 8).map fromLeBytes

/-- The loop body of `(*Dash).readCString`: Go iterates
`for i := uint32(0); ; i++`, reading the byte at `ptr + i` (uint32
addition) until a zero byte or an unreadable address. `fuel` bounds the
iteration count: the uint32 index takes at most 2 ^ 32 distinct values,
and a scan that finds no terminator among them revisits the same
(nonzero) bytes forever, i.e. the Go loop never terminates. -/
def readCStringFrom (m : Mem) (ptr : Nat) : Nat → Nat → List Nat
  | _, 0 => []
  | i, fuel + 1 =>
    match m.readByte ((ptr + i) % 2 ^ 32) with
    | none => []
    | some 0 => []
    | some (b + 1) => (b + 1) :: readCStringFrom m ptr (i + 1) fuel

/-- `(*Dash).readCString`: read a null-terminated byte string from guest
memory starting at `ptr`. -/
def Mem.readCString (m : Mem) (ptr : Nat) : List Nat :=
  readCStringFrom m ptr 0 (2 ^ 32)

/-- The world a host API call acts on: the guest linear memory plus the
guest module's internal state (allocator bookkeeping, shell state),
abstracted as `γ`. Guest calls may change both components; direct host
memory accesses touch only `mem`. -/
structure World (γ : Type) where
  mem : Mem
  guest : γ

/-- Behaviour of the guest module's exported functions, as state
transformers on the world. `none` models a wazero `Call` error; a numeric
result is the raw uint64 in `results[0]`. `free` and `dashDestroy` have
their call errors discarded by the Go code, so they are plain
transformers. -/
structure GuestEnv (γ : Type) where
  malloc : Nat → World γ → Option Nat × World γ
  free : Nat → World γ → World γ
  dashInit : Nat → Nat → World γ → Option Nat × World γ
  dashEval : Nat → Nat → World γ → Option Nat × World γ
  dashGetExitStatus : World γ → Option Nat × World γ
  dashGetVar : Nat → World γ → Option Nat × World γ
  dashSetVar : Nat → Nat → World γ → Option Nat × World γ
  dashDestroy : World γ → World γ

/-- Host→guest resource events observable during one API call: a guest
allocation handed to the host (nonzero pointer returned by malloc), a
host-invoked free, the guest init call with its raw result, and the guest
destroy call. -/
inductive Ev
  | alloc (p : Nat)
  | free (p : Nat)
  | guestInit (res : Option Nat)
  | destroy
deriving DecidableEq, Repr

/-- The error outcomes of the Go API, one tag per distinct `errors.New`
site (the Go errors are strings; the tags keep them apart). -/
inductive Err
  | callFailed
  | mallocNull
  | writeFailed
  | notInited
  | alreadyInited
  | initCallFailed
  | initFailed
  | evalFailed
  | exitStatusUnavailable
  | getVarUnavailable
  | setVarUnavailable
  | setVarFailed
deriving DecidableEq, Repr

/-- Interpret a raw uint64 result as Go's `int32(results[0])`. -/
def toInt32 (n : Nat) : Int :=
  if n % 2 ^ 32 < 2 ^ 31 then (n % 2 ^ 32 : Int) else (n % 2 ^ 32 : Int) - 2 ^ 32

/-- `(*Dash).allocString`: call the guest malloc for `len + 1` bytes, fail
on a call error or a null pointer, write the bytes plus a terminating
zero, and free the pointer again if the write is rejected. The returned
event list records the allocation and any free performed. -/
def allocString (env : GuestEnv γ) (w : World γ) (s : List Nat) :
    Except Err Nat × World γ × List Ev :=
  match env.malloc (s.length + 1) w with
  | (none, w1) => (.error .callFailed, w1, [])
  | (some r, w1) =>
    let ptr := r % 2 ^ 32
    if ptr = 0 then (.error .mallocNull, w1, [])
    else
      match w1.mem.write ptr (s ++ [0]) with
      | some m2 => (.ok ptr, { w1 with mem := m2 }, [.alloc ptr])
      | none => (.error .writeFailed, env.free ptr w1, [.alloc ptr, .free ptr])

/-- `(*Dash).freePtr`: no-op on a null pointer, otherwise invoke the guest
free (its error is swallowed). -/
def freePtr (env : GuestEnv γ) (w : World γ) (ptr : Nat) : World γ × List Ev :=
  if ptr = 0 then (w, []) else (env.free ptr w, [.free ptr])

/-- Free a list of pointers in order (the cleanup loops of `Init`). -/
def freeList (env : GuestEnv γ) (w : World γ) : List Nat → World γ × List Ev
  | [] => (w, [])
  | p :: rest =>
    let r1 := freePtr env w p
    let r2 := freeList env r1.1 rest
    (r2.1, r1.2 ++ r2.2)

/-- The argument-marshaling loop of `(*Dash).Init`: allocate each argument
as a guest string; on a failure at position `i`, free the `i` pointers
already obtained (held reversed in `acc`, freed in allocation order) and
abort with the error. -/
def allocArgs (env : GuestEnv γ) (w : World γ) (acc : List Nat) :
    List (List Nat) → Except Err (List Nat) × World γ × List Ev
  | [] => (.ok acc.reverse, w, [])
  | a :: rest =>
    match allocString env w a with
    | (.ok p, w1, t1) =>
      let r := allocArgs env w1 (p :: acc) rest
      (r.1, r.2.1, t1 ++ r.2.2)
    | (.error e, w1, t1) =>
      let r := freeList env w1 acc.reverse
      (.error e, r.1, t1 ++ r.2)

/-- The argv-array write loop of `(*Dash).Init`: store pointer `i` as a
little-endian 32-bit word at `argv + 4*i` (uint32 address arithmetic; the
boolean result of each `WriteUint32Le` is discarded by the Go code). -/
def writeArgvFrom (m : Mem) (argv i : Nat) : List Nat → Mem
  | [] => m
  | p :: rest =>
    writeArgvFrom (m.writeOrSkip ((argv + 4 * i) % 2 ^ 32) (leBytes 4 p)) argv (i + 1) rest

/-- Host-side session state of `Dash` (the fields the claims concern).
`inited` models the Go field `initialized`; the `has*` flags record
whether the corresponding optional export resolved non-nil at
construction (required exports are checked fatally at construction and
are always present on a live session). The checkpoint store is threaded
separately to the jump imports via the context. -/
structure Dash where
  inited : Bool
  hasGetVar : Bool
  hasSetVar : Bool
  hasGetExitStatus : Bool
deriving DecidableEq, Repr

/-- The byte string "dash": the default single-element argv of `Init`. -/
def dashArgv0 : List Nat := [100, 97, 115, 104]

/-- `(*Dash).Init`: reject when already initialized; default the argument
list; marshal every argument; allocate and fill the argv pointer array;
call the guest `dash_init(argc, argv)`; free the argv array and every
argument string regardless of outcome; report a call error or a nonzero
guest return code as errors, and set `inited` only on a zero return. -/
def Init (env : GuestEnv γ) (d : Dash) (w : World γ) (args : List (List Nat)) :
    Except Err Unit × Dash × World γ × List Ev :=
  if d.inited then (.error .alreadyInited, d, w, [])
  else
    let args2 := if args.length = 0 then [dashArgv0] else args
    let argc := args2.length
    match allocArgs env w [] args2 with
    | (.error e, w1, t1) => (.error e, d, w1, t1)
    | (.ok ptrs, w1, t1) =>
      match env.malloc (argc * 4) w1 with
      | (none, w2) =>
        let r := freeList env w2 ptrs
        (.error .callFailed, d, r.1, t1 ++ r.2)
      | (some rv, w2) =>
        let argv := rv % 2 ^ 32
        if argv = 0 then
          let r := freeList env w2 ptrs
          (.error .mallocNull, d, r.1, t1 ++ r.2)
        else
          let w3 : World γ := { w2 with mem := writeArgvFrom w2.mem argv 0 ptrs }
          let c := env.dashInit argc argv w3
          let r1 := freePtr env c.2 argv
          let r2 := freeList env r1.1 ptrs
          let tr := t1 ++ [.alloc argv, .guestInit c.1] ++ r1.2 ++ r2.2
          match c.1 with
          | none => (.error .initCallFailed, d, r2.1, tr)
          | some res =>
            if res % 2 ^ 32 ≠ 0 then (.error .initFailed, d, r2.1, tr)
            else (.ok (), { d with inited := true }, r2.1, tr)

/-- `(*Dash).Eval`: requires Init; marshal the command string, call the
guest `dash_eval(ptr, len)`, free the string (deferred in Go, so it runs
after the call on every path), and return `int(int32(results[0]))`. -/
def Eval (env : GuestEnv γ) (d : Dash) (w : World γ) (cmd : List Nat) :
    Except Err Int × World γ × List Ev :=
  if d.inited = false then (.error .notInited, w, [])
  else
    match allocString env w cmd with
    | (.error e, w1, t1) => (.error e, w1, t1)
    | (.ok p, w1, t1) =>
      let c := env.dashEval p cmd.length w1
      let r := freePtr env c.2 p
      match c.1 with
      | none => (.error .evalFailed, r.1, t1 ++ r.2)
      | some res => (.ok (toInt32 res), r.1, t1 ++ r.2)

/-- `(*Dash).GetExitStatus`: requires Init and the optional
`dash_get_exitstatus` export; returns `int(int32(results[0]))`. -/
def GetExitStatus (env : GuestEnv γ) (d : Dash) (w : World γ) :
    Except Err Int × World γ :=
  if d.inited = false then (.error .notInited, w)
  else if d.hasGetExitStatus = false then (.error .exitStatusUnavailable, w)
  else
    match env.dashGetExitStatus w with
    | (none, w1) => (.error .callFailed, w1)
    | (some res, w1) => (.ok (toInt32 res), w1)

/-- `(*Dash).GetVar`: requires Init and the optional `dash_getvar` export;
marshal the name, call the guest, and map a null value pointer to the
empty string without touching memory; otherwise read the C string at the
returned address (before the deferred free of the name runs). -/
def GetVar (env : GuestEnv γ) (d : Dash) (w : World γ) (name : List Nat) :
    Except Err (List Nat) × World γ × List Ev :=
  if d.inited = false then (.error .notInited, w, [])
  else if d.hasGetVar = false then (.error .getVarUnavailable, w, [])
  else
    match allocString env w name with
    | (.error e, w1, t1) => (.error e, w1, t1)
    | (.ok p, w1, t1) =>
      let c := env.dashGetVar p w1
      match c.1 with
      | none =>
        let r := freePtr env c.2 p
        (.error .callFailed, r.1, t1 ++ r.2)
      | some res =>
        let valPtr := res % 2 ^ 32
        if valPtr = 0 then
          let r := freePtr env c.2 p
          (.ok [], r.1, t1 ++ r.2)
        else
          let v := c.2.mem.readCString valPtr
          let r := freePtr env c.2 p
          (.ok v, r.1, t1 ++ r.2)

/-- `(*Dash).SetVar`: requires Init and the optional `dash_setvar` export;
marshal name and value, call the guest, free both (deferred, so value
then name, on every path), and report a nonzero i32 result as failure. -/
def SetVar (env : GuestEnv γ) (d : Dash) (w : World γ) (name value : List Nat) :
    Except Err Unit × World γ × List Ev :=
  if d.inited = false then (.error .notInited, w, [])
  else if d.hasSetVar = false then (.error .setVarUnavailable, w, [])
  else
    match allocString env w name with
    | (.error e, w1, t1) => (.error e, w1, t1)
    | (.ok np, w1, t1) =>
      match allocString env w1 value with
      | (.error e, w2, t2) =>
        let r := freePtr env w2 np
        (.error e, r.1, t1 ++ t2 ++ r.2)
      | (.ok vp, w2, t2) =>
        let c := env.dashSetVar np vp w2
        let r1 := freePtr env c.2 vp
        let r2 := freePtr env r1.1 np
        let tr := t1 ++ t2 ++ r1.2 ++ r2.2
        match c.1 with
        | none => (.error .callFailed, r2.1, tr)
        | some res =>
          if res % 2 ^ 32 ≠ 0 then (.error .setVarFailed, r2.1, tr)
          else (.ok (), r2.1, tr)

/-- `(*Dash).Close`: when initialized, invoke the guest destroy export
(best-effort, errors discarded) and mark the session uninitialized;
otherwise do nothing guest-visible. The final `d.mod.Close(ctx)` releases
the module instance inside the engine and is delegated to wazero (which
tolerates double release); it involves no session or guest-memory state
modelled here. -/
def Close (env : GuestEnv γ) (d : Dash) (w : World γ) : Dash × World γ × List Ev :=
  if d.inited then ({ d with inited := false }, env.dashDestroy w, [.destroy])
  else (d, w, [])

/-- The allocations a trace hands to the host. -/
def allocsOf (t : List Ev) : List Nat :=
  t.filterMap fun e => match e with | .alloc p => some p | _ => none

/-- The pointers a trace frees. -/
def freesOf (t : List Ev) : List Nat :=
  t.filterMap fun e => match e with | .free p => some p | _ => none

/-- A saved setjmp checkpoint: the opaque engine snapshot handle, the
stack-pointer global at capture time, and the shadow copy of the C-stack
region `[stackPointer, heapBase)`. -/
structure Checkpoint where
  snap : Nat
  stackPointer : Nat
  cstack : List Nat
deriving DecidableEq, Repr

/-- The state the jump imports act on: guest memory, the mutable
`__stack_pointer` global, the immutable `__heap_base` global, and the
session's checkpoint store (`dashState.checkpoints`). -/
structure JumpCtx where
  mem : Mem
  sp : Nat
  heapBase : Nat
  checkpoints : List Checkpoint

/-- How a host import invocation ends: returning normally to the guest
caller, resuming checkpoint `idx`'s snapshot so that its setjmp call
returns `payload` (the raw u64 passed to `Restore`), or aborting the
whole guest call (a Go panic inside the host function, e.g. an
out-of-range index into the checkpoint store). -/
inductive JumpOutcome
  | normalReturn
  | restored (idx : Nat) (payload : Nat)
  | trap
deriving DecidableEq, Repr

/-- `setjmpHost`: snapshot the engine state (the opaque handle is the
`snap` argument); copy the shadow C stack `[sp, heapBase)` when `sp` is
below `__heap_base` and the range is readable, else leave it empty;
append the new checkpoint; write its index as 8 little-endian bytes at
the jump-buffer address (result discarded); return 0 to the guest.
`setjmpShadow` is the shadow-copy block of `setjmpHost`: the bytes of
`[sp, heapBase)` when `sp < heapBase` and the range is readable, else the
nil slice. -/
def setjmpShadow (c : JumpCtx) : List Nat :=
  if c.sp < c.heapBase then
    match c.mem.read c.sp (c.heapBase - c.sp) with
    | some bs => bs
    | none => []
  else []

def setjmpHost (c : JumpCtx) (snap bufPtr : Nat) : JumpCtx × Int :=
  let cstack := setjmpShadow c
  let idx := c.checkpoints.length
  let c1 : JumpCtx := { c with checkpoints := c.checkpoints ++ [⟨snap, c.sp, cstack⟩] }
  ({ c1 with mem := c1.mem.writeOrSkip bufPtr (leBytes 8 idx) }, 0)

/-- `longjmpHost`: read the checkpoint index from the jump buffer (the
boolean is discarded, so an unreadable buffer yields index 0); normalize
a zero value to 1 per the C standard; on a valid index, reset the
stack-pointer global, write back the shadow stack, and restore the
snapshot with `uint64(uint32(val))` as the value the capture site now
returns — control never comes back to the longjmp caller. An index at or
beyond the store length panics (`state.checkpoints[idx]` out of range)
before any global or memory is touched, aborting the guest call. -/
def longjmpHost (c : JumpCtx) (bufPtr : Nat) (val : Int) : JumpOutcome × JumpCtx :=
  let idx := (c.mem.readU64Le bufPtr).getD 0
  let v := if val = 0 then 1 else val
  if h : idx < c.checkpoints.length then
    let cp := c.checkpoints.get ⟨idx, h⟩
    let c1 : JumpCtx := { c with sp := cp.stackPointer }
    let c2 : JumpCtx :=
      if 0 < cp.cstack.length then
        { c1 with mem := c1.mem.writeOrSkip cp.stackPointer cp.cstack }
      else c1
    (.restored idx (Int.toNat (v % 2 ^ 32)), c2)
  else (.trap, c)

/-- The raw u64 a longjmp passes to `Restore`: Go's
`uint64(uint32(val))` after normalizing 0 to 1. The capture site's setjmp
call returns this payload as its i32 result, i.e. observes
`toInt32 (ljPayload val)`. -/
def ljPayload (val : Int) : Nat :=
  Int.toNat ((if val = 0 then 1 else val) % 2 ^ 32)

/-- A concrete guest environment used to instantiate the theorems with
hypotheses: malloc hands out address 8, the shell exports all succeed
with result 0. -/
def testEnv : GuestEnv Unit where
  malloc := fun _ w => (some 8, w)
  free := fun _ w => w
  dashInit := fun _ _ w => (some 0, w)
  dashEval := fun _ _ w => (some 0, w)
  dashGetExitStatus := fun w => (some 0, w)
  dashGetVar := fun _ w => (some 0, w)
  dashSetVar := fun _ _ w => (some 0, w)
  dashDestroy := fun w => w

/-- A small all-zero 64-byte memory. -/
def mem0 : Mem := ⟨64, fun _ => 0⟩

/-- A concrete world over `mem0`. -/
def w0 : World Unit := ⟨mem0, ()⟩

/-- A 16-byte memory whose byte at address 0 is 65 (letter A). -/
def memA : Mem := ⟨16, fun a => if a = 0 then 65 else 0⟩

/-- A session that has not been initialized; all optional exports present. -/
def dFresh : Dash := ⟨false, true, true, true⟩

/-- An initialized session; all optional exports present. -/
def dReady : Dash := ⟨true, true, true, true⟩

/-- A jump context over `mem0` holding one checkpoint. -/
def jctx1 : JumpCtx := ⟨mem0, 32, 48, [⟨0, 32, []⟩]⟩

/-- A jump context over `mem0` with an empty checkpoint store. -/
def jctx0 : JumpCtx := ⟨mem0, 32, 48, []⟩

/-- A jump context whose stack pointer sits above its heap base. -/
def jctx2 : JumpCtx := ⟨mem0, 32, 4, []⟩

theorem fromLeBytes_leBytes : ∀ (w n : Nat), fromLeBytes (leBytes w n) = n % 256 ^ w := by
  intro w
  induction w with
  | zero => intro n; simp [leBytes, fromLeBytes, Nat.mod_one]
  | succ k ih =>
    intro n
    simp only [leBytes, fromLeBytes, ih, Nat.mod_mod_of_dvd]
    rw [pow_succ, mul_comm (256 ^ k) 256, Nat.mod_mul]
    omega

theorem leBytes_length (w n : Nat) : (leBytes w n).length = w := by
  induction w generalizing n with
  | zero => rfl
  | succ k ih => simp [leBytes, ih]

theorem Mem.write_size (m : Mem) (a : Nat) (bs : List Nat) (m2 : Mem)
    (h : m.write a bs = some m2) : m2.size = m.size := by
  unfold Mem.write at h
  split at h
  · exact (Option.some_inj.mp h) ▸ rfl
  · exact absurd h (by simp)

theorem Mem.write_bound (m : Mem) (a : Nat) (bs : List Nat) (m2 : Mem)
    (h : m.write a bs = some m2) : a + bs.length ≤ m.size := by
  unfold Mem.write at h
  split at h
  · assumption
  · exact absurd h (by simp)

theorem Mem.write_readByte (m : Mem) (a : Nat) (bs : List Nat) (m2 : Mem)
    (h : m.write a bs = some m2) (j : Nat) (hj : j < bs.length) :
    m2.readByte (a + j) = some (bs.getD j 0) := by
  have hb := Mem.write_bound m a bs m2 h
  unfold Mem.write at h
  rw [if_pos hb] at h
  have h2 := Option.some_inj.mp h
  subst h2
  dsimp only [Mem.readByte]
  rw [if_pos (by omega)]
  rw [if_pos ⟨by omega, by omega⟩]
  rw [Nat.add_sub_cancel_left]

theorem Mem.write_data (m : Mem) (a : Nat) (bs : List Nat) (m2 : Mem)
    (h : m.write a bs = some m2) (j : Nat) (hj : j < bs.length) :
    m2.data (a + j) = bs.getD j 0 := by
  have hb := Mem.write_bound m a bs m2 h
  have hr := Mem.write_readByte m a bs m2 h j hj
  have hs := Mem.write_size m a bs m2 h
  unfold Mem.readByte at hr
  rw [if_pos (by omega)] at hr
  exact Option.some_inj.mp hr

theorem Mem.write_read (m : Mem) (a : Nat) (bs : List Nat) (m2 : Mem)
    (h : m.write a bs = some m2) : m2.read a bs.length = some bs := by
  have hb := Mem.write_bound m a bs m2 h
  have hs := Mem.write_size m a bs m2 h
  unfold Mem.read
  rw [if_pos (by omega)]
  congr 1
  apply List.ext_getElem
  · simp
  · intro i hi hi2
    have hd := Mem.write_data m a bs m2 h i (by simpa using hi2)
    simp only [List.getElem_map, List.getElem_range, hd]
    exact List.getD_eq_getElem bs 0 (by simpa using hi2)

theorem Mem.writeOrSkip_readU64Le (m : Mem) (a n : Nat) (hb : a + 8 ≤ m.size) :
    (m.writeOrSkip a (leBytes 8 n)).readU64Le a = some (n % 2 ^ 64) := by
  have hlen : (leBytes 8 n).length = 8 := leBytes_length 8 n
  cases hw : m.write a (leBytes 8 n) with
  | none =>
    unfold Mem.write at hw
    rw [if_pos (by omega)] at hw
    exact absurd hw (by simp)
  | some m2 =>
    unfold Mem.writeOrSkip
    rw [hw]
    have hr := Mem.write_read m a (leBytes 8 n) m2 hw
    rw [hlen] at hr
    unfold Mem.readU64Le
    rw [hr]
    have : (256 : Nat) ^ 8 = 2 ^ 64 := by norm_num
    simp [fromLeBytes_leBytes, this]

theorem setjmpHost_eq (c : JumpCtx) (snap bufPtr : Nat) :
    setjmpHost c snap bufPtr =
      (⟨c.mem.writeOrSkip bufPtr (leBytes 8 c.checkpoints.length), c.sp, c.heapBase,
        c.checkpoints ++ [⟨snap, c.sp, setjmpShadow c⟩]⟩, 0) := rfl

theorem setjmpShadow_empty (c : JumpCtx)
    (h : c.heapBase ≤ c.sp ∨ c.mem.size < c.heapBase) : setjmpShadow c = [] := by
  unfold setjmpShadow
  rcases h with h | h
  · rw [if_neg (by omega)]
  · by_cases hsp : c.sp < c.heapBase
    · rw [if_pos hsp]
      unfold Mem.read
      rw [if_neg (by omega)]
    · rw [if_neg hsp]

theorem readCStringFrom_eq (m : Mem) (ptr : Nat) :
    ∀ (s : List Nat) (i fuel : Nat),
    (∀ j, j < s.length → m.readByte (ptr + i + j) = some (s.getD j 0)) →
    (∀ j, j < s.length → s.getD j 0 ≠ 0) →
    m.readByte (ptr + i + s.length) = some 0 →
    ptr + i + s.length < 2 ^ 32 →
    s.length < fuel →
    readCStringFrom m ptr i fuel = s := by
  intro s
  induction s with
  | nil =>
    intro i fuel _ _ hterm hlt hfuel
    cases fuel with
    | zero => omega
    | succ f =>
      have hmod : (ptr + i) % 2 ^ 32 = ptr + i := Nat.mod_eq_of_lt (by omega)
      have ht : m.readByte (ptr + i) = some 0 := by simpa using hterm
      simp only [readCStringFrom, hmod, ht]
  | cons b t ih =>
    intro i fuel hbytes hnz hterm hlt hfuel
    cases fuel with
    | zero => simp at hfuel
    | succ f =>
      have hb : m.readByte (ptr + i) = some b := by
        have := hbytes 0 (by simp)
        simpa using this
      have hbne : b ≠ 0 := by
        have := hnz 0 (by simp)
        simpa using this
      obtain ⟨k, rfl⟩ : ∃ k, b = k + 1 := ⟨b - 1, by omega⟩
      have hmod : (ptr + i) % 2 ^ 32 = ptr + i := Nat.mod_eq_of_lt (by simp at hlt; omega)
      simp only [readCStringFrom, hmod, hb]
      refine congrArg (List.cons (k + 1)) (ih (i + 1) f ?_ ?_ ?_ ?_ ?_)
      · intro j hj
        have := hbytes (j + 1) (by simp; omega)
        simpa [Nat.add_assoc, Nat.add_comm 1 j] using this
      · intro j hj
        have := hnz (j + 1) (by simp; omega)
        simpa using this
      · have harr : ptr + (i + 1) + t.length = ptr + i + (t.length + 1) := by omega
        rw [harr]
        simpa using hterm
      · simp at hlt; omega
      · simp at hfuel; omega

/-- Claim C1: the marshaling round-trip. If `allocString(s)` succeeds
returning guest address `p`, then `readCString(p)` on the resulting
memory returns exactly `s`, for any byte string `s` with no embedded null
bytes (the wasm32 memory size never exceeds 2 ^ 32 bytes, stated here as
a hypothesis on the resulting memory). -/
theorem C1_allocString_roundtrip (env : GuestEnv γ) (w : World γ) (s : List Nat)
    (p : Nat)
    (hok : (allocString env w s).1 = .ok p)
    (hnz : 0 ∉ s)
    (hsz : (allocString env w s).2.1.mem.size ≤ 2 ^ 32) :
    (allocString env w s).2.1.mem.readCString p = s := by
  rcases hm : env.malloc (s.length + 1) w with ⟨r, w1⟩
  cases r with
  | none =>
    simp only [allocString, hm] at hok
    exact absurd hok (by simp)
  | some rv =>
    simp only [allocString, hm] at hok
    split at hok
    · exact absurd hok (by simp)
    · rename_i h0
      split at hok
      case _ m2 heq =>
        dsimp only at hok
        simp only [Except.ok.injEq] at hok
        have hA : allocString env w s =
            (Except.ok p, ⟨⟨m2, w1.guest⟩, [Ev.alloc p]⟩) := by
          simp only [allocString, hm]
          rw [if_neg h0, heq, hok]
        rw [hA] at hsz ⊢
        dsimp only at hsz ⊢
        rw [← hok] at *
        have hbound := Mem.write_bound w1.mem (rv % 2 ^ 32) (s ++ [0]) m2 heq
        have hsize := Mem.write_size w1.mem (rv % 2 ^ 32) (s ++ [0]) m2 heq
        simp only [List.length_append, List.length_singleton] at hbound
        unfold Mem.readCString
        apply readCStringFrom_eq
        · intro j hj
          have h3 := Mem.write_readByte w1.mem (rv % 2 ^ 32) (s ++ [0]) m2 heq j
            (by simp; omega)
          rw [List.getD_append s [0] 0 j hj] at h3
          simpa using h3
        · intro j hj
          rw [List.getD_eq_getElem s 0 hj]
          intro hz
          exact hnz (hz ▸ List.getElem_mem hj)
        · have h3 := Mem.write_readByte w1.mem (rv % 2 ^ 32) (s ++ [0]) m2 heq s.length
            (by simp)
          rw [List.getD_append_right s [0] 0 s.length (Nat.le_refl _)] at h3
          simpa using h3
        · omega
        · omega
      case _ => exact absurd hok (by simp)

/-- Witness for C1: marshaling the two-byte string "hi" through the
concrete environment and reading it back. -/
theorem C1_allocString_roundtrip_witness :
    ((allocString testEnv w0 [104, 105]).1 = Except.ok 8 ∧
      (0 : Nat) ∉ ([104, 105] : List Nat) ∧
      (allocString testEnv w0 [104, 105]).2.1.mem.size ≤ 2 ^ 32) ∧
    (allocString testEnv w0 [104, 105]).2.1.mem.readCString 8 = [104, 105] :=
  ⟨⟨rfl, by decide, by decide⟩,
    C1_allocString_roundtrip testEnv w0 [104, 105] 8 rfl (by decide) (by decide)⟩

/-- Counterexample to claim C4 as stated: `readCString` itself has no
null-address check — called with address 0 it scans guest memory from
address 0 like any other address, so on a memory whose byte at address 0
is nonzero it returns a nonempty string. -/
theorem C4_readCString_null_cex :
    memA.readCString 0 = [65] ∧ memA.readCString 0 ≠ [] :=
  ⟨by decide, by decide⟩

/-- Claim C4 amended: the null-to-empty mapping lives in `GetVar`, not in
`readCString`. When the guest get-variable export returns a value pointer
congruent to 0 (a null wasm32 pointer), `GetVar` returns the empty string
with no error and without reading the value from guest memory;
`readCString(0)` itself scans from address 0. -/
theorem C4_getvar_null_empty (env : GuestEnv γ) (d : Dash) (w : World γ)
    (name : List Nat) (p rv : Nat)
    (hinit : d.inited = true) (hexp : d.hasGetVar = true)
    (hp : (allocString env w name).1 = Except.ok p)
    (hrv : (env.dashGetVar p (allocString env w name).2.1).1 = some rv)
    (h0 : rv % 2 ^ 32 = 0) :
    (GetVar env d w name).1 = Except.ok [] := by
  rcases hA : allocString env w name with ⟨res, w1, t1⟩
  rw [hA] at hp hrv
  dsimp only at hp hrv
  subst hp
  rcases hG : env.dashGetVar p w1 with ⟨resG, w2⟩
  rw [hG] at hrv
  dsimp only at hrv
  subst hrv
  simp only [GetVar, hinit, hexp, Bool.true_eq_false, if_false, hA, hG, h0]
  simp [freePtr]

/-- Witness for the amended C4: the concrete guest environment's getvar
returns the null pointer, and GetVar yields the empty string. -/
theorem C4_getvar_null_empty_witness :
    (dReady.inited = true ∧ dReady.hasGetVar = true ∧
      (allocString testEnv w0 [88]).1 = Except.ok 8 ∧
      (testEnv.dashGetVar 8 (allocString testEnv w0 [88]).2.1).1 = some 0 ∧
      (0 : Nat) % 2 ^ 32 = 0) ∧
    (GetVar testEnv dReady w0 [88]).1 = Except.ok [] :=
  ⟨⟨by decide, by decide, rfl, rfl, by decide⟩,
    C4_getvar_null_empty testEnv dReady w0 [88] 8 0 (by decide) (by decide)
      rfl rfl (by decide)⟩

/-- Claim C5: before a successful Init (`inited = false`), Eval, GetVar,
SetVar and GetExitStatus each fail immediately with the not-initialized
error, touching neither the world nor the trace; and a second Init on an
already-initialized session fails with the already-initialized error
leaving the session state, the guest world and the trace unchanged. -/
theorem C5_guards (env : GuestEnv γ) (d d2 : Dash) (w : World γ)
    (cmd name value : List Nat) (args : List (List Nat))
    (hd : d.inited = false) (hd2 : d2.inited = true) :
    Eval env d w cmd = (Except.error Err.notInited, w, []) ∧
    GetVar env d w name = (Except.error Err.notInited, w, []) ∧
    SetVar env d w name value = (Except.error Err.notInited, w, []) ∧
    GetExitStatus env d w = (Except.error Err.notInited, w) ∧
    Init env d2 w args = (Except.error Err.alreadyInited, d2, w, []) := by
  refine ⟨?_, ?_, ?_, ?_, ?_⟩ <;>
    simp [Eval, GetVar, SetVar, GetExitStatus, Init, hd, hd2]

/-- Witness for C5 on the concrete environment: a fresh session for the
four guarded calls, an initialized one for the double-Init guard. -/
theorem C5_guards_witness :
    (dFresh.inited = false ∧ dReady.inited = true) ∧
    (Eval testEnv dFresh w0 [97] = (Except.error Err.notInited, w0, []) ∧
      GetVar testEnv dFresh w0 [98] = (Except.error Err.notInited, w0, []) ∧
      SetVar testEnv dFresh w0 [98] [99] = (Except.error Err.notInited, w0, []) ∧
      GetExitStatus testEnv dFresh w0 = (Except.error Err.notInited, w0) ∧
      Init testEnv dReady w0 [] = (Except.error Err.alreadyInited, dReady, w0, [])) :=
  ⟨⟨by decide, by decide⟩,
    C5_guards testEnv dFresh dReady w0 [97] [98] [99] [] (by decide) (by decide)⟩

theorem allocsOf_append (t1 t2 : List Ev) :
    allocsOf (t1 ++ t2) = allocsOf t1 ++ allocsOf t2 := by
  simp [allocsOf]

theorem freesOf_append (t1 t2 : List Ev) :
    freesOf (t1 ++ t2) = freesOf t1 ++ freesOf t2 := by
  simp [freesOf]

theorem freePtr_trace (env : GuestEnv γ) (w : World γ) (p : Nat) :
    allocsOf (freePtr env w p).2 = [] ∧
    freesOf (freePtr env w p).2 = (if p = 0 then [] else [p]) := by
  unfold freePtr
  split <;> simp_all [allocsOf, freesOf]

theorem freeList_trace (env : GuestEnv γ) :
    ∀ (ps : List Nat) (w : World γ),
    allocsOf (freeList env w ps).2 = [] ∧
    ((∀ p ∈ ps, p ≠ 0) → freesOf (freeList env w ps).2 = ps) := by
  intro ps
  induction ps with
  | nil => intro w; simp [freeList, allocsOf, freesOf]
  | cons p rest ih =>
    intro w
    unfold freeList
    constructor
    · rw [allocsOf_append, (freePtr_trace env w p).1, (ih (freePtr env w p).1).1]
      rfl
    · intro hall
      rw [freesOf_append, (freePtr_trace env w p).2,
        (ih (freePtr env w p).1).2 (fun q hq => hall q (List.mem_cons_of_mem p hq)),
        if_neg (hall p (List.mem_cons_self p rest))]
      rfl

theorem allocString_trace (env : GuestEnv γ) (w : World γ) (s : List Nat) :
    (∃ p, (allocString env w s).1 = Except.ok p ∧ p ≠ 0 ∧
      (allocString env w s).2.2 = [Ev.alloc p]) ∨
    (∃ e, (allocString env w s).1 = Except.error e ∧
      (allocsOf (allocString env w s).2.2 : Multiset Nat) =
        (freesOf (allocString env w s).2.2 : Multiset Nat)) := by
  unfold allocString
  rcases env.malloc (s.length + 1) w with ⟨r, w1⟩
  cases r with
  | none => right; exact ⟨.callFailed, rfl, by simp [allocsOf, freesOf]⟩
  | some rv =>
    dsimp only
    by_cases hp : rv % 2 ^ 32 = 0
    · rw [if_pos hp]
      right
      exact ⟨.mallocNull, rfl, by simp [allocsOf, freesOf]⟩
    · rw [if_neg hp]
      rcases w1.mem.write (rv % 2 ^ 32) (s ++ [0]) with _ | m2
      · right
        exact ⟨.writeFailed, rfl, by simp [allocsOf, freesOf]⟩
      · left
        exact ⟨rv % 2 ^ 32, rfl, hp, rfl⟩

theorem allocArgs_trace (env : GuestEnv γ) :
    ∀ (args : List (List Nat)) (w : World γ) (acc : List Nat),
    (∀ p ∈ acc, p ≠ 0) →
    ((∃ ptrs, (allocArgs env w acc args).1 = Except.ok ptrs ∧
        (∀ p ∈ ptrs, p ≠ 0) ∧
        freesOf (allocArgs env w acc args).2.2 = [] ∧
        (allocsOf (allocArgs env w acc args).2.2 : Multiset Nat) + (acc : Multiset Nat) =
          (ptrs : Multiset Nat)) ∨
      (∃ e, (allocArgs env w acc args).1 = Except.error e ∧
        (allocsOf (allocArgs env w acc args).2.2 : Multiset Nat) + (acc : Multiset Nat) =
          (freesOf (allocArgs env w acc args).2.2 : Multiset Nat))) := by
  intro args
  induction args with
  | nil =>
    intro w acc hacc
    left
    refine ⟨acc.reverse, rfl, fun p hp => hacc p (List.mem_reverse.mp hp), rfl, ?_⟩
    simp [allocArgs, allocsOf, Multiset.coe_reverse]
  | cons a rest ih =>
    intro w acc hacc
    rcases hS : allocString env w a with ⟨resS, wS, tS⟩
    have hTS := allocString_trace env w a
    rw [hS] at hTS
    dsimp only at hTS
    rcases hTS with ⟨p, hok, hpne, htr⟩ | ⟨e, herr, hbal⟩
    · subst hok
      subst htr
      have hacc2 : ∀ q ∈ p :: acc, q ≠ 0 := by
        intro q hq
        rcases List.mem_cons.mp hq with rfl | hq2
        · exact hpne
        · exact hacc q hq2
      have hIH := ih wS (p :: acc) hacc2
      simp only [allocArgs, hS]
      rcases hIH with ⟨ptrs, hok2, hptrs, hfr, hm⟩ | ⟨e2, herr2, hm⟩
      · left
        refine ⟨ptrs, hok2, hptrs, ?_, ?_⟩
        · rw [freesOf_append, hfr]
          simp [freesOf]
        · have ha1 : allocsOf [Ev.alloc p] = [p] := rfl
          rw [allocsOf_append, ha1, ← hm, Multiset.coe_add, Multiset.coe_add,
            Multiset.coe_eq_coe]
          exact List.perm_middle.symm
      · right
        refine ⟨e2, herr2, ?_⟩
        have ha1 : allocsOf [Ev.alloc p] = [p] := rfl
        have hf1 : freesOf [Ev.alloc p] = [] := rfl
        rw [allocsOf_append, freesOf_append, ha1, hf1, List.nil_append, ← hm,
          Multiset.coe_add, Multiset.coe_add, Multiset.coe_eq_coe]
        exact List.perm_middle.symm
    · subst herr
      simp only [allocArgs, hS]
      right
      refine ⟨e, rfl, ?_⟩
      rcases freeList_trace env acc.reverse wS with ⟨hfa, hff⟩
      rw [allocsOf_append, freesOf_append, hfa,
        hff (fun q hq => hacc q (List.mem_reverse.mp hq)), List.append_nil]
      rw [Multiset.coe_add, Multiset.coe_eq_coe]
      exact (List.Perm.append_right acc (Multiset.coe_eq_coe.mp hbal)).trans
        (List.Perm.append_left (freesOf tS) (List.reverse_perm acc).symm)

/-- Claim C6: every Init call balances its guest allocations: the
multiset of nonzero pointers obtained from the guest allocator during the
call (argument strings and the argv array) equals the multiset of
pointers passed to the guest deallocator before Init returns, on the
success path and on every error path; in particular a failure while
marshaling the i-th argument frees exactly the i pointers already
allocated, and a write failure inside allocString frees its own
allocation. -/
theorem C6_init_frees_all (env : GuestEnv γ) (d : Dash) (w : World γ)
    (args : List (List Nat)) :
    ((allocsOf (Init env d w args).2.2.2 : List Nat) : Multiset Nat) =
      (freesOf (Init env d w args).2.2.2 : Multiset Nat) := by
  unfold Init
  cases hI : d.inited with
  | true => simp [allocsOf, freesOf]
  | false =>
    simp only [Bool.false_eq_true, if_false]
    generalize (if args.length = 0 then [dashArgv0] else args) = args2
    rcases hA : allocArgs env w [] args2 with ⟨resA, wA, tA⟩
    have hT := allocArgs_trace env args2 w [] (by simp)
    rw [hA] at hT
    dsimp only at hT
    cases resA with
    | error e =>
      dsimp only
      rcases hT with ⟨ptrs, hok, _⟩ | ⟨e2, herr, hbal⟩
      · exact absurd hok (by simp)
      · simpa using hbal
    | ok ptrs =>
      have hT2 : ∃ ptrs2, (Except.ok ptrs : Except Err (List Nat)) = Except.ok ptrs2 ∧
          (∀ p ∈ ptrs2, p ≠ 0) ∧
          freesOf tA = [] ∧
          ((allocsOf tA : List Nat) : Multiset Nat) + (([] : List Nat) : Multiset Nat) =
            (ptrs2 : Multiset Nat) := by
        rcases hT with h | ⟨e2, herr, _⟩
        · exact h
        · exact absurd herr (by simp)
      obtain ⟨ptrs2, hok, hptrs, hfr, hm⟩ := hT2
      obtain rfl : ptrs = ptrs2 := by simpa using hok
      have hmA : ((allocsOf tA : List Nat) : Multiset Nat) = (ptrs : Multiset Nat) := by
        simpa using hm
      dsimp only
      rcases hM : env.malloc (args2.length * 4) wA with ⟨mr, wM⟩
      cases mr with
      | none =>
        dsimp only
        rcases freeList_trace env ptrs wM with ⟨hfa, hff⟩
        rw [allocsOf_append, freesOf_append, hfa, hff hptrs, hfr, List.append_nil,
          List.nil_append]
        exact hmA
      | some rv =>
        dsimp only
        by_cases hz : rv % 2 ^ 32 = 0
        · rw [if_pos hz]
          dsimp only
          rcases freeList_trace env ptrs wM with ⟨hfa, hff⟩
          rw [allocsOf_append, freesOf_append, hfa, hff hptrs, hfr, List.append_nil,
            List.nil_append]
          exact hmA
        · rw [if_neg hz]
          have hbody : ∀ (o : Option Nat) (w4 : World γ),
              ((allocsOf (tA ++ [Ev.alloc (rv % 2 ^ 32), Ev.guestInit o] ++
                  (freePtr env w4 (rv % 2 ^ 32)).2 ++
                  (freeList env (freePtr env w4 (rv % 2 ^ 32)).1 ptrs).2) : List Nat) :
                Multiset Nat) =
                (freesOf (tA ++ [Ev.alloc (rv % 2 ^ 32), Ev.guestInit o] ++
                  (freePtr env w4 (rv % 2 ^ 32)).2 ++
                  (freeList env (freePtr env w4 (rv % 2 ^ 32)).1 ptrs).2) : Multiset Nat) := by
            intro o w4
            have hta : allocsOf [Ev.alloc (rv % 2 ^ 32), Ev.guestInit o] =
              [rv % 2 ^ 32] := rfl
            have htf : freesOf [Ev.alloc (rv % 2 ^ 32), Ev.guestInit o] = [] := rfl
            rcases freePtr_trace env w4 (rv % 2 ^ 32) with ⟨hpa, hpf⟩
            rcases freeList_trace env ptrs (freePtr env w4 (rv % 2 ^ 32)).1 with ⟨hfa, hff⟩
            rw [allocsOf_append, allocsOf_append, allocsOf_append,
              freesOf_append, freesOf_append, freesOf_append,
              hta, htf, hpa, hpf, hfa, hff hptrs, if_neg hz, hfr]
            simp only [List.append_nil, List.nil_append]
            rw [← Multiset.coe_add, ← Multiset.coe_add, hmA]
            rw [Multiset.coe_add, Multiset.coe_add, Multiset.coe_eq_coe]
            exact List.perm_append_comm
          split
          · exact hbody _ _
          · split
            · exact hbody _ _
            · exact hbody _ _

/-- Claim C9: whenever Init returns an error on a not-yet-initialized
session — argument marshaling failed, the guest call failed, or the guest
init export returned nonzero — the initialized flag stays false (so the
guards of Eval/GetVar/SetVar/GetExitStatus keep failing and Init may be
retried); the flag becomes true exactly when Init returns success, which
happens only on a guest init call that returned an i32 of 0. -/
theorem C9_init_flag (env : GuestEnv γ) (d : Dash) (w : World γ)
    (args : List (List Nat)) (hd : d.inited = false) :
    (∀ e, (Init env d w args).1 = Except.error e →
      (Init env d w args).2.1.inited = false) ∧
    ((Init env d w args).2.1.inited = true →
      (Init env d w args).1 = Except.ok () ∧
      ∃ rv, rv % 2 ^ 32 = 0 ∧
        Ev.guestInit (some rv) ∈ (Init env d w args).2.2.2) := by
  unfold Init
  rw [hd]
  simp only [Bool.false_eq_true, if_false]
  generalize (if args.length = 0 then [dashArgv0] else args) = args2
  rcases hA : allocArgs env w [] args2 with ⟨resA, wA, tA⟩
  cases resA with
  | error e =>
    dsimp only
    exact ⟨fun e2 _ => hd, fun hcon => absurd (hd ▸ hcon) (by simp)⟩
  | ok ptrs =>
    dsimp only
    rcases hM : env.malloc (args2.length * 4) wA with ⟨mr, wM⟩
    cases mr with
    | none =>
      dsimp only
      exact ⟨fun e2 _ => hd, fun hcon => absurd (hd ▸ hcon) (by simp)⟩
    | some rv =>
      dsimp only
      by_cases hz : rv % 2 ^ 32 = 0
      · rw [if_pos hz]
        exact ⟨fun e2 _ => hd, fun hcon => absurd (hd ▸ hcon) (by simp)⟩
      · rw [if_neg hz]
        split
        · exact ⟨fun e2 _ => hd, fun hcon => absurd (hd ▸ hcon) (by simp)⟩
        · rename_i res heq
          split
          · exact ⟨fun e2 _ => hd, fun hcon => absurd (hd ▸ hcon) (by simp)⟩
          · rename_i hres
            refine ⟨fun e2 he => absurd he (by simp), fun _ => ⟨rfl, res, ?_, ?_⟩⟩
            · omega
            · rw [← heq]
              simp

/-- Witness for C9 at the concrete environment: Init on a fresh session
succeeds (guest init returns 0) and the flag becomes true with the
successful guest-init event in the trace. -/
theorem C9_init_flag_witness :
    dFresh.inited = false ∧
    ((∀ e, (Init testEnv dFresh w0 []).1 = Except.error e →
        (Init testEnv dFresh w0 []).2.1.inited = false) ∧
      ((Init testEnv dFresh w0 []).2.1.inited = true →
        (Init testEnv dFresh w0 []).1 = Except.ok () ∧
        ∃ rv, rv % 2 ^ 32 = 0 ∧
          Ev.guestInit (some rv) ∈ (Init testEnv dFresh w0 []).2.2.2)) :=
  ⟨by decide, C9_init_flag testEnv dFresh w0 [] (by decide)⟩

/-- Claim C8: Close is idempotent. The first Close on an initialized
session invokes the guest destroy export (exactly the trace
`[Ev.destroy]`; its error is discarded and does not block teardown) and
marks the session uninitialized; a second Close finds `inited = false`,
makes no guest destroy call, and leaves the session state and world
unchanged (module release is delegated to the engine, which tolerates
double release). On a never-initialized session Close is already a no-op. -/
theorem C8_close_idempotent (env : GuestEnv γ) (d : Dash) (w : World γ) :
    (Close env d w).1.inited = false ∧
    (Close env d w).2.2 = (if d.inited then [Ev.destroy] else []) ∧
    Close env (Close env d w).1 (Close env d w).2.1 =
      ((Close env d w).1, (Close env d w).2.1, ([] : List Ev)) := by
  unfold Close
  by_cases h : d.inited = true <;> simp [h]

/-- Claim C3: a setjmp-import call over a store of n checkpoints appends
exactly one new checkpoint at handle n (the previous entries keep their
positions, insertion order defining the handle), writes n as an 8-byte
little-endian value at the jump-buffer address, and returns 0 to this
direct call. (Stated for a jump buffer lying inside guest memory, since
the discarded-result write leaves memory unchanged otherwise, and a store
shorter than 2 ^ 64, the width of the stored index.) -/
theorem C3_setjmp_appends (c : JumpCtx) (snap bufPtr : Nat)
    (hbuf : bufPtr + 8 ≤ c.mem.size)
    (hlen : c.checkpoints.length < 2 ^ 64) :
    (setjmpHost c snap bufPtr).2 = 0 ∧
    (setjmpHost c snap bufPtr).1.checkpoints.length = c.checkpoints.length + 1 ∧
    (setjmpHost c snap bufPtr).1.checkpoints.take c.checkpoints.length = c.checkpoints ∧
    (setjmpHost c snap bufPtr).1.checkpoints.getLast? =
      some ⟨snap, c.sp, setjmpShadow c⟩ ∧
    (setjmpHost c snap bufPtr).1.mem.readU64Le bufPtr = some c.checkpoints.length := by
  rw [setjmpHost_eq]
  refine ⟨rfl, by simp, by simp [List.take_left], by simp, ?_⟩
  have := Mem.writeOrSkip_readU64Le c.mem bufPtr c.checkpoints.length hbuf
  rw [this, Nat.mod_eq_of_lt hlen]

/-- Witness for C3 at a concrete context: one prior checkpoint, buffer at
address 0 of a 64-byte memory. -/
theorem C3_setjmp_appends_witness :
    (0 + 8 ≤ jctx1.mem.size ∧ jctx1.checkpoints.length < 2 ^ 64) ∧
    ((setjmpHost jctx1 7 0).2 = 0 ∧
      (setjmpHost jctx1 7 0).1.checkpoints.length = jctx1.checkpoints.length + 1 ∧
      (setjmpHost jctx1 7 0).1.checkpoints.take jctx1.checkpoints.length =
        jctx1.checkpoints ∧
      (setjmpHost jctx1 7 0).1.checkpoints.getLast? =
        some ⟨7, jctx1.sp, setjmpShadow jctx1⟩ ∧
      (setjmpHost jctx1 7 0).1.mem.readU64Le 0 = some jctx1.checkpoints.length) :=
  ⟨⟨by decide, by decide⟩, C3_setjmp_appends jctx1 7 0 (by decide) (by decide)⟩

/-- Claim C10: the setjmp capture is total with respect to the
shadow-stack copy: when the stack-pointer global is at or above the
heap-base global, or the region read fails (the region reaches past the
memory size), the call still appends a checkpoint recording the current
stack pointer with an empty shadow stack, still writes the new index to
the jump buffer, and still returns 0 rather than failing. -/
theorem C10_setjmp_total (c : JumpCtx) (snap bufPtr : Nat)
    (h : c.heapBase ≤ c.sp ∨ c.mem.size < c.heapBase)
    (hbuf : bufPtr + 8 ≤ c.mem.size)
    (hlen : c.checkpoints.length < 2 ^ 64) :
    (setjmpHost c snap bufPtr).2 = 0 ∧
    (setjmpHost c snap bufPtr).1.checkpoints.length = c.checkpoints.length + 1 ∧
    (setjmpHost c snap bufPtr).1.checkpoints.getLast? = some ⟨snap, c.sp, []⟩ ∧
    (setjmpHost c snap bufPtr).1.mem.readU64Le bufPtr = some c.checkpoints.length := by
  rw [setjmpHost_eq, setjmpShadow_empty c h]
  refine ⟨rfl, by simp, by simp, ?_⟩
  have := Mem.writeOrSkip_readU64Le c.mem bufPtr c.checkpoints.length hbuf
  rw [this, Nat.mod_eq_of_lt hlen]

/-- Witness for C10: a context whose stack pointer 32 is above its heap
base 4 (no shadow region), buffer at address 0. -/
theorem C10_setjmp_total_witness :
    (jctx2.heapBase ≤ jctx2.sp ∨ jctx2.mem.size < jctx2.heapBase) ∧
    ((setjmpHost jctx2 3 0).2 = 0 ∧
      (setjmpHost jctx2 3 0).1.checkpoints.length = jctx2.checkpoints.length + 1 ∧
      (setjmpHost jctx2 3 0).1.checkpoints.getLast? = some ⟨3, jctx2.sp, []⟩ ∧
      (setjmpHost jctx2 3 0).1.mem.readU64Le 0 = some jctx2.checkpoints.length) :=
  ⟨Or.inl (by decide),
    C10_setjmp_total jctx2 3 0 (Or.inl (by decide)) (by decide) (by decide)⟩

/-- Claim C7: a longjmp whose jump buffer holds an index at or beyond the
checkpoint store length is fatal: the Go indexing `state.checkpoints[idx]`
panics before the stack-pointer global or guest memory is touched, so no
checkpoint is restored, the context is unchanged, and control does not
return to the guest as a normal result (the guest call aborts). -/
theorem C7_longjmp_invalid (c : JumpCtx) (bufPtr : Nat) (val : Int)
    (h : c.checkpoints.length ≤ (c.mem.readU64Le bufPtr).getD 0) :
    longjmpHost c bufPtr val = (.trap, c) ∧
    (longjmpHost c bufPtr val).1 ≠ JumpOutcome.normalReturn ∧
    (∀ i p, (longjmpHost c bufPtr val).1 ≠ JumpOutcome.restored i p) := by
  have he : longjmpHost c bufPtr val = (.trap, c) := by
    unfold longjmpHost
    rw [dif_neg (by omega)]
  refine ⟨he, ?_, ?_⟩
  · rw [he]
    intro hx
    cases hx
  · intro i p
    rw [he]
    intro hx
    cases hx

/-- Witness for C7: the empty store, so index 0 read from the zeroed
buffer is already out of range. -/
theorem C7_longjmp_invalid_witness :
    jctx0.checkpoints.length ≤ (jctx0.mem.readU64Le 0).getD 0 ∧
    longjmpHost jctx0 0 5 = (.trap, jctx0) :=
  ⟨by decide, (C7_longjmp_invalid jctx0 0 5 (by decide)).1⟩

/-- Claim C2: a longjmp whose jump buffer holds a valid checkpoint index
resumes that checkpoint's snapshot and never returns to its own caller;
the payload handed to `Restore` is what the paired setjmp capture site
returns, and as an i32 it is 1 when the passed value was 0 and the passed
value itself otherwise (for any i32 value). -/
theorem C2_longjmp_value (c : JumpCtx) (bufPtr : Nat) (val : Int)
    (hlo : -(2 ^ 31) ≤ val) (hhi : val < 2 ^ 31)
    (hidx : (c.mem.readU64Le bufPtr).getD 0 < c.checkpoints.length) :
    (longjmpHost c bufPtr val).1 =
      JumpOutcome.restored ((c.mem.readU64Le bufPtr).getD 0) (ljPayload val) ∧
    (val = 0 → toInt32 (ljPayload val) = 1) ∧
    (val ≠ 0 → toInt32 (ljPayload val) = val) ∧
    (longjmpHost c bufPtr val).1 ≠ JumpOutcome.normalReturn := by
  have he : (longjmpHost c bufPtr val).1 =
      JumpOutcome.restored ((c.mem.readU64Le bufPtr).getD 0) (ljPayload val) := by
    unfold longjmpHost ljPayload
    rw [dif_pos hidx]
  have hval : ∀ v : Int, -(2 ^ 31) ≤ v → v < 2 ^ 31 →
      toInt32 (Int.toNat (v % 2 ^ 32)) = v := by
    intro v h1 h2
    unfold toInt32
    split <;> push_cast <;> omega
  refine ⟨he, ?_, ?_, by rw [he]; intro hx; cases hx⟩
  · intro h0
    unfold ljPayload
    rw [if_pos h0]
    exact hval 1 (by norm_num) (by norm_num)
  · intro h0
    unfold ljPayload
    rw [if_neg h0]
    exact hval val hlo hhi

/-- Witness for C2: one checkpoint, zeroed buffer (index 0), restore
value 0 — the capture site observes 1. -/
theorem C2_longjmp_value_witness :
    (-(2 ^ 31) ≤ (0 : Int) ∧ (0 : Int) < 2 ^ 31 ∧
      (jctx1.mem.readU64Le 0).getD 0 < jctx1.checkpoints.length) ∧
    ((longjmpHost jctx1 0 0).1 =
        JumpOutcome.restored ((jctx1.mem.readU64Le 0).getD 0) (ljPayload 0) ∧
      toInt32 (ljPayload 0) = 1) :=
  ⟨⟨by decide, by decide, by decide⟩,
    (C2_longjmp_value jctx1 0 0 (by decide) (by decide) (by decide)).1,
    (C2_longjmp_value jctx1 0 0 (by decide) (by decide) (by decide)).2.1 rfl⟩

end DashWasi
